import Mathlib

set_option maxRecDepth 8192

/-!
Verification of the itter.sh interactive terminal session engine.

Python strings are modelled as `List Char` (a Python `str` is a sequence of
code points).  Machine integers are `Int` (Python ints are unbounded).
The `wcwidth` library is an external collaborator: its per-character width
function is a parameter `cw : Char → Int` of every definition that uses it,
and `wcswidth` is reconstructed from it exactly as the library computes it
(any negative per-character width makes the total -1).
-/

abbrev Str := List Char

/-- Models Python `str.isspace` / the `\s` class for the characters that can
actually appear in terminal input (ASCII whitespace). -/
def pyIsSpace (c : Char) : Bool := c.isWhitespace

/-- Python `str.strip()`: drop leading and trailing whitespace. -/
def pyStrip (s : Str) : Str :=
  ((s.dropWhile pyIsSpace).reverse.dropWhile pyIsSpace).reverse

/-- Python slice `l[:i]` (negative indices count from the end, clamped). -/
def pySliceTo (l : Str) (i : Int) : Str :=
  if 0 ≤ i then l.take i.toNat else l.take ((l.length : Int) + i).toNat

/-- Python slice `l[i:]` (negative indices count from the end, clamped). -/
def pySliceFrom (l : Str) (i : Int) : Str :=
  if 0 ≤ i then l.drop i.toNat else l.drop ((l.length : Int) + i).toNat

/-- Python indexing `l[i]` for character lists (negative = from the end);
out-of-range reads return a space, which never happens on the guarded
call sites embedded below. -/
def pyGetChar (l : Str) (i : Int) : Char :=
  if 0 ≤ i then l.getD i.toNat ' ' else l.getD ((l.length : Int) + i).toNat ' '

/-- Python `str.isprintable` restricted to the single characters the shell
receives; control characters (below 0x20) and DEL are not printable. -/
def pyIsPrintable (c : Char) : Bool := 0x20 ≤ c.toNat && c.toNat ≠ 0x7f

/-- Python `str.isdigit` for ASCII decimal digits. -/
def pyIsDigit (c : Char) : Bool := '0' ≤ c && c ≤ '9'

/-- `int(s)` for a nonempty all-digit string. -/
def pyStrToNat (s : Str) : Nat :=
  s.foldl (fun acc c => acc * 10 + (c.toNat - '0'.toNat)) 0

/-- Python `\w` word-character class (letters, digits, underscore). -/
def isWordChar (c : Char) : Bool := c.isAlphanum || c = '_'

/-- `list(set(xs))` where only membership matters: de-duplicate keeping the
first occurrence of each element. -/
def pyDedup (l : List Str) : List Str :=
  l.foldl (fun acc x => if x ∈ acc then acc else acc ++ [x]) []

/-- Python `str.split()` with no separator: split on whitespace runs and
drop empty pieces. -/
def pySplit (s : Str) : List Str :=
  (s.splitOnP pyIsSpace).filter (fun p => ¬p.isEmpty)

/-- `" ".join(parts)`. -/
def pyJoinSpace (parts : List Str) : Str := List.intercalate [' '] parts

/-! ## Width-aware text utilities (`itter/core/utils.py`)

`wcswidth` from the wcwidth library: scans the string; if any character has
negative width the total is -1, otherwise the widths are summed. -/

def wcswidthFn (cw : Char → Int) : Str → Int
  | [] => 0
  | c :: rest =>
    if cw c < 0 then -1
    else
      let r := wcswidthFn cw rest
      if r < 0 then -1 else cw c + r

/-- `char_width = get_char_width(char); if char_width == -1: char_width = 1`
from `truncate_str_with_wcwidth`. -/
def cwClamp (cw : Char → Int) (c : Char) : Int :=
  if cw c = -1 then 1 else cw c

/-- The scanning loop shared by both branches of `truncate_str_with_wcwidth`:
consume characters while the accumulated clamped width stays within
`maxw`, returning the consumed prefix (`text[:i]` / `text[:end_idx]`). -/
def truncLoop (cw : Char → Int) (maxw : Int) : Int → Str → Str
  | _, [] => []
  | cur, c :: rest =>
    let d := cwClamp cw c
    if maxw < cur + d then [] else c :: truncLoop cw maxw (cur + d) rest

/-- `truncate_str_with_wcwidth(text, max_visual_width, placeholder="...")`
from `itter/core/utils.py` lines 159-190. -/
def truncate_str_with_wcwidth (cw : Char → Int) (text : Str) (maxVisualWidth : Int)
    (placeholder : Str) : Str :=
  if text = [] then []
  else if wcswidthFn cw text ≤ maxVisualWidth then text
  else
    let placeholderVisualWidth := wcswidthFn cw placeholder
    if maxVisualWidth < placeholderVisualWidth then
      truncLoop cw maxVisualWidth 0 text
    else
      truncLoop cw (maxVisualWidth - placeholderVisualWidth) 0 text ++ placeholder

/-- The default ellipsis argument of `truncate_str_with_wcwidth`. -/
def defaultPlaceholder : Str := ['.', '.', '.']

/-- Sum of clamped per-character widths. -/
def sumClamp (cw : Char → Int) (l : Str) : Int := (l.map (cwClamp cw)).sum

theorem truncLoop_prefix (cw : Char → Int) (maxw : Int) :
    ∀ (l : Str) (cur : Int), truncLoop cw maxw cur l <+: l := by
  intro l
  induction l with
  | nil => intro cur; simp [truncLoop]
  | cons c rest ih =>
    intro cur
    simp only [truncLoop]
    split
    · exact List.nil_prefix
    · obtain ⟨t, ht⟩ := ih (cur + cwClamp cw c)
      exact ⟨t, by simp [ht]⟩

theorem truncLoop_width (cw : Char → Int) (maxw : Int) :
    ∀ (l : Str) (cur : Int), cur ≤ maxw →
      cur + sumClamp cw (truncLoop cw maxw cur l) ≤ maxw := by
  intro l
  induction l with
  | nil => intro cur h; simpa [truncLoop, sumClamp] using h
  | cons c rest ih =>
    intro cur h
    simp only [truncLoop]
    split
    · simpa [sumClamp] using h
    · rename_i hfits
      have := ih (cur + cwClamp cw c) (by omega)
      simp only [sumClamp, List.map_cons, List.sum_cons] at *
      omega

theorem wcswidth_cases (cw : Char → Int) :
    ∀ l : Str, wcswidthFn cw l = -1 ∨ wcswidthFn cw l = sumClamp cw l := by
  intro l
  induction l with
  | nil => right; simp [wcswidthFn, sumClamp]
  | cons c rest ih =>
    simp only [wcswidthFn]
    split
    · left; rfl
    · rename_i hc
      rcases ih with h | h
      · left; simp [h]
      · by_cases hr : wcswidthFn cw rest < 0
        · left; simp [hr]
        · right
          simp only [if_neg hr, sumClamp, List.map_cons, List.sum_cons]
          have : cwClamp cw c = cw c := by
            unfold cwClamp
            split <;> omega
          rw [this]
          simp only [sumClamp] at h
          omega

theorem wcswidth_nonneg_or (cw : Char → Int) (l : Str) :
    wcswidthFn cw l = -1 ∨ 0 ≤ wcswidthFn cw l := by
  induction l with
  | nil => right; simp [wcswidthFn]
  | cons c rest ih =>
    simp only [wcswidthFn]
    split
    · left; rfl
    · rcases ih with h | h
      · left; simp [h]
      · by_cases hr : wcswidthFn cw rest < 0
        · left; simp [hr]
        · right; rename_i hc; simp only [if_neg hr]; omega

theorem wcswidth_append (cw : Char → Int) (a b : Str) :
    wcswidthFn cw (a ++ b) = -1 ∨
      (wcswidthFn cw (a ++ b) = wcswidthFn cw a + wcswidthFn cw b ∧
       0 ≤ wcswidthFn cw a ∧ 0 ≤ wcswidthFn cw b) := by
  induction a with
  | nil =>
    rcases wcswidth_nonneg_or cw b with h | h
    · left; simpa using h
    · right; simpa [wcswidthFn] using h
  | cons c rest ih =>
    simp only [List.cons_append, wcswidthFn, List.append_eq]
    split
    · left; rfl
    · rename_i hc
      rcases ih with h | ⟨heq, ha, hb⟩
      · left; rw [h]; norm_num
      · by_cases hr : wcswidthFn cw (rest ++ b) < 0
        · left; simp [hr]
        · right
          simp only [if_neg hr, heq]
          have hra : ¬ wcswidthFn cw rest < 0 := by omega
          simp only [wcswidthFn, if_neg hc, if_neg hra] at *
          refine ⟨by omega, by omega, hb⟩

/-- If the clamped width of `l` is within `w` and `0 ≤ w`, the library
width of `l` is also within `w`. -/
theorem wcswidth_le_of_sumClamp_le (cw : Char → Int) (l : Str) (w : Int)
    (hw : 0 ≤ w) (h : sumClamp cw l ≤ w) : wcswidthFn cw l ≤ w := by
  rcases wcswidth_cases cw l with hc | hc
  · omega
  · omega

/-- C1: for every per-character width function, every string `s` and every
`w ≥ 0`, `truncate_str_with_wcwidth s w "..."` returns a string whose
visual width (library `wcswidth`) is at most `w`; if `s` already fits it is
returned unchanged; otherwise, when `w` is at least the ellipsis width the
result is a prefix of `s` followed by the ellipsis, and when `w` is smaller
than the ellipsis width it is a hard-truncated prefix with no ellipsis. -/
theorem truncate_str_with_wcwidth_spec (cw : Char → Int) (s : Str) (w : Int)
    (hw : 0 ≤ w) :
    wcswidthFn cw (truncate_str_with_wcwidth cw s w defaultPlaceholder) ≤ w ∧
    (wcswidthFn cw s ≤ w → truncate_str_with_wcwidth cw s w defaultPlaceholder = s) ∧
    (w < wcswidthFn cw s → wcswidthFn cw defaultPlaceholder ≤ w →
      ∃ p, p <+: s ∧
        truncate_str_with_wcwidth cw s w defaultPlaceholder = p ++ defaultPlaceholder) ∧
    (w < wcswidthFn cw s → w < wcswidthFn cw defaultPlaceholder →
      truncate_str_with_wcwidth cw s w defaultPlaceholder <+: s) := by
  unfold truncate_str_with_wcwidth
  by_cases hnil : s = []
  · subst hnil
    simp only [if_pos rfl]
    refine ⟨by simpa [wcswidthFn] using hw, fun _ => by trivial, ?_, ?_⟩
    · intro hlt _
      exfalso
      simp [wcswidthFn] at hlt
      omega
    · intro hlt _
      exfalso
      simp [wcswidthFn] at hlt
      omega
  · simp only [if_neg hnil]
    by_cases hfit : wcswidthFn cw s ≤ w
    · simp only [if_pos hfit]
      exact ⟨hfit, fun _ => by trivial, fun hlt _ => absurd hfit (by omega),
        fun hlt _ => absurd hfit (by omega)⟩
    · simp only [if_neg hfit]
      by_cases hpw : w < wcswidthFn cw defaultPlaceholder
      · simp only [if_pos hpw]
        refine ⟨?_, fun h => absurd h hfit, fun _ hle => absurd hpw (by omega),
          fun _ _ => truncLoop_prefix cw w s 0⟩
        have hsum := truncLoop_width cw w s 0 hw
        exact wcswidth_le_of_sumClamp_le cw _ w hw (by omega)
      · simp only [if_neg hpw]
        push_neg at hpw
        refine ⟨?_, fun h => absurd h hfit,
          fun _ _ => ⟨_, truncLoop_prefix cw _ s 0, rfl⟩,
          fun _ hlt => absurd hlt (by omega)⟩
        have hsum := truncLoop_width cw (w - wcswidthFn cw defaultPlaceholder) s 0
          (by
            have := wcswidth_nonneg_or cw defaultPlaceholder
            omega)
        rcases wcswidth_append cw
            (truncLoop cw (w - wcswidthFn cw defaultPlaceholder) 0 s)
            defaultPlaceholder with h | ⟨heq, hp, hq⟩
        · omega
        · rw [heq]
          rcases wcswidth_cases cw
              (truncLoop cw (w - wcswidthFn cw defaultPlaceholder) 0 s) with hc | hc
          · omega
          · omega

/-- Witness for `truncate_str_with_wcwidth_spec` at a concrete input:
every character one column wide, `s = "hello"`, `w = 4`. -/
theorem truncate_str_with_wcwidth_spec_witness :
    wcswidthFn (fun _ => 1)
      (truncate_str_with_wcwidth (fun _ => 1) ('h' :: 'e' :: 'l' :: 'l' :: 'o' :: [])
        4 defaultPlaceholder) ≤ 4 :=
  (truncate_str_with_wcwidth_spec (fun _ => 1)
    ('h' :: 'e' :: 'l' :: 'l' :: 'o' :: []) 4 (by decide)).1

/-! ## Command history (`src/itter/command_history.py`) -/

def MAX_HISTORY_SIZE : Nat := 10

/-- `deque` contents front-first (`appendleft` = cons, `pop` = drop last)
plus the replay cursor. -/
structure CommandHistory where
  history : List Str
  cursor : Int
deriving DecidableEq

/-- Python list indexing on the history deque (negative = from the end). -/
def pyGetStr (l : List Str) (i : Int) : Str :=
  if 0 ≤ i then l.getD i.toNat [] else l.getD ((l.length : Int) + i).toNat []

def CommandHistory.peek (h : CommandHistory) : Str :=
  match h.history with
  | [] => []
  | x :: _ => x

def CommandHistory.add (h : CommandHistory) (command : Str) : CommandHistory :=
  let h := { h with cursor := -1 }
  if command = h.peek then h
  else if h.history.length = MAX_HISTORY_SIZE then
    { h with history := command :: h.history.dropLast }
  else
    { h with history := command :: h.history }

def CommandHistory.scroll_up (h : CommandHistory) : Str × CommandHistory :=
  if h.history.length = 0 then ([], h)
  else if h.cursor < (h.history.length : Int) - 1 then
    (pyGetStr h.history (h.cursor + 1), { h with cursor := h.cursor + 1 })
  else (pyGetStr h.history (-1), h)

def CommandHistory.scroll_down (h : CommandHistory) : Str × CommandHistory :=
  if h.history.length = 0 ∨ h.cursor ≤ 0 then
    ([], { h with cursor := max (-1) (h.cursor - 1) })
  else
    (pyGetStr h.history (h.cursor - 1), { h with cursor := h.cursor - 1 })

/-- Counterexample to C8 as stated: adding the empty string to an *empty*
history is silently suppressed (because `peek()` of an empty history is the
empty string), so the added entry does not become the new head. -/
theorem commandHistory_add_empty_cex :
    (CommandHistory.add ⟨[], -1⟩ []).history = [] ∧
    (CommandHistory.add ⟨[], -1⟩ []).history.head? ≠ some [] := by
  constructor
  · rfl
  · intro hcontra
    simp [CommandHistory.add, CommandHistory.peek] at hcontra

/-- C8 (amended): the history holds at most 10 entries most-recent-first;
`add c` always resets the replay cursor; if `c` equals `peek()` (the head
entry, or the empty string when the history is empty) the contents are
unchanged; otherwise `c` becomes the new head, evicting the oldest entry
when the history is at capacity. -/
theorem commandHistory_add_spec (h : CommandHistory) (c : Str)
    (hcap : h.history.length ≤ MAX_HISTORY_SIZE) :
    (h.add c).cursor = -1 ∧
    (h.add c).history.length ≤ MAX_HISTORY_SIZE ∧
    (c = h.peek → (h.add c).history = h.history) ∧
    (c ≠ h.peek →
      (h.add c).history.head? = some c ∧
      (h.history.length = MAX_HISTORY_SIZE →
        (h.add c).history = c :: h.history.dropLast) ∧
      (h.history.length < MAX_HISTORY_SIZE →
        (h.add c).history = c :: h.history)) := by
  have hM : MAX_HISTORY_SIZE = 10 := rfl
  unfold CommandHistory.add
  have hpeek : CommandHistory.peek { h with cursor := -1 } = h.peek := rfl
  by_cases hdup : c = h.peek
  · rw [if_pos (hpeek ▸ hdup)]
    exact ⟨rfl, hcap, fun _ => rfl, fun hne => absurd hdup hne⟩
  · rw [if_neg (hpeek ▸ hdup)]
    by_cases hfull : h.history.length = MAX_HISTORY_SIZE
    · rw [if_pos hfull]
      rw [hM] at hfull hcap ⊢
      refine ⟨rfl, ?_, fun he => absurd he hdup, fun _ => ⟨rfl, fun _ => rfl, ?_⟩⟩
      · simp only [List.length_cons, List.length_dropLast]
        omega
      · intro hlt
        omega
    · rw [if_neg hfull]
      rw [hM] at hcap ⊢
      rw [hM] at hfull
      refine ⟨rfl, ?_, fun he => absurd he hdup, fun _ => ⟨rfl, ?_, fun _ => rfl⟩⟩
      · simp only [List.length_cons]
        omega
      · intro he
        exact absurd he hfull

/-- Witness for `commandHistory_add_spec` at the concrete input
`h = ⟨["a"], -1⟩`, `c = "b"`. -/
theorem commandHistory_add_spec_witness :
    (CommandHistory.add ⟨[['a']], -1⟩ ['b']).history.length ≤ MAX_HISTORY_SIZE :=
  (commandHistory_add_spec ⟨[['a']], -1⟩ ['b'] (by decide)).2.1

/-! ## Configuration constants (`itter/core/config.py`) -/

def EET_MAX_LENGTH : Nat := 180
def SIDEBAR_SCROLL_STEP : Int := 3
def DEFAULT_TIMELINE_PAGE_SIZE : Int := 10

/-! ## Target filter (`itter/core/utils.py parse_target_filter`) -/

inductive TargetFilter where
  | all
  | mine
  | user (name : Str)
  | channel (tag : Str)
deriving DecidableEq

/-- `[a-zA-Z0-9]`. -/
def isAsciiAlnum (c : Char) : Bool :=
  ('a' ≤ c && c ≤ 'z') || ('A' ≤ c && c ≤ 'Z') || ('0' ≤ c && c ≤ '9')

/-- `^[a-zA-Z0-9][a-zA-Z0-9-]*$`. -/
def channelFormatOk (s : Str) : Bool :=
  match s with
  | [] => false
  | c :: rest => isAsciiAlnum c && rest.all (fun d => isAsciiAlnum d || d = '-')

def parse_target_filter (rawText : Str) : TargetFilter :=
  let text := (pyStrip rawText).map Char.toLower
  if text = [] ∨ text = ['a', 'l', 'l'] then .all
  else if text = ['m', 'i', 'n', 'e'] then .mine
  else
    match text with
    | '#' :: channelName =>
      if channelFormatOk channelName then .channel channelName else .all
    | _ => .all

/-! ## Session state (`itter/ssh/shell.py ItterShell`) -/

/-- Observable effects of a transition: terminal writes, scheduled
asynchronous fetch-and-render tasks (`asyncio.create_task`), awaited
renders, store calls and refresh-task management. -/
inductive Act where
  | writeMsg (m : String)
  | writeRaw
  | newlineEcho
  | prompt
  | redrawPromptBuffer
  | redrawLine
  | close
  | submitLine (line : Str)
  | clearScreen
  | fetchWatch (page : Int)
  | fetchStatic (page : Int)
  | renderWatch (page : Int)
  | renderStatic (page : Int)
  | dbPostEet (content : Str)
  | cancelRefresh
  | startRefresh
deriving DecidableEq

/-- The per-connection mutable fields of `ItterShell` that the verified
transitions read or write.  `refreshTask = some done` models a created
`_timeline_auto_refresh_task` together with its `done()` flag. -/
structure ShellState where
  inputBuffer : Str
  cursorPos : Int
  hist : CommandHistory
  isWatching : Bool
  currentPage : Int
  pageSize : Int
  lastCount : Option Int
  sidebarEnabled : Bool
  sidebarOffset : Int
  sidebarUserList : List Str
  termHeight : Int
  targetFilter : TargetFilter
  refreshTask : Option Bool
deriving DecidableEq

/-- `ItterShell.__init__`. -/
def shellInit : ShellState where
  inputBuffer := []
  cursorPos := 0
  hist := ⟨[], -1⟩
  isWatching := false
  currentPage := 1
  pageSize := DEFAULT_TIMELINE_PAGE_SIZE
  lastCount := none
  sidebarEnabled := false
  sidebarOffset := 0
  sidebarUserList := []
  termHeight := 24
  targetFilter := .all
  refreshTask := none

/-- The two backward `while` loops of the Ctrl+W handler: starting at index
`i`, step left while the index is in range and the character satisfies `p`;
returns the first index that stops the loop (possibly `-1`). -/
def skipBack (p : Char → Bool) (buf : Str) (i : Int) : Int :=
  if h : 0 ≤ i ∧ p (pyGetChar buf i) then skipBack p buf (i - 1) else i
termination_by (i + 1).toNat
decreasing_by omega

def msgFirstPageWatch : String := "Already at the first page of timeline."
def msgFirstPageStatic : String := "Already at the first page."
def msgLastPageWatch : String := "Already at the last page of timeline or no more items."
def msgLastPageStatic : String := "Already at the last page or no more items."

/-- One iteration of the `for char in data` loop of
`ItterShell.data_received` (shell.py lines 384-440). -/
def processChar (st : ShellState) (c : Char) : ShellState × List Act :=
  if c = '\r' ∨ c = '\n' then
    let lineToProcess := st.inputBuffer
    let st := { st with inputBuffer := [] }
    if lineToProcess ≠ [] then
      ({ st with cursorPos := 0 }, [.newlineEcho, .submitLine lineToProcess])
    else (st, [.newlineEcho, .prompt])
  else if c = '\x7f' ∨ c = '\x08' then
    if 0 < st.cursorPos then
      ({ st with
          inputBuffer :=
            pySliceTo st.inputBuffer (st.cursorPos - 1) ++
              pySliceFrom st.inputBuffer st.cursorPos,
          cursorPos := st.cursorPos - 1 }, [.redrawLine])
    else (st, [])
  else if c = '\x03' then (st, [.writeRaw, .close])
  else if c = '\x04' then (st, [.writeRaw, .close])
  else if c = '\x15' then
    if st.inputBuffer ≠ [] then
      ({ st with inputBuffer := [], cursorPos := 0 }, [.redrawLine])
    else (st, [])
  else if c = '\x17' then
    if 0 < st.cursorPos then
      let endPos := st.cursorPos
      let startPos1 := skipBack (fun d => pyIsSpace d) st.inputBuffer (endPos - 1)
      let startPos2 := skipBack (fun d => ¬pyIsSpace d) st.inputBuffer startPos1
      let newCursorPos := startPos2 + 1
      ({ st with
          inputBuffer :=
            pySliceTo st.inputBuffer newCursorPos ++
              pySliceFrom st.inputBuffer endPos,
          cursorPos := newCursorPos }, [.redrawLine])
    else (st, [])
  else if pyIsPrintable c then
    ({ st with
        inputBuffer :=
          pySliceTo st.inputBuffer st.cursorPos ++ [c] ++
            pySliceFrom st.inputBuffer st.cursorPos,
        cursorPos := st.cursorPos + 1 }, [.redrawLine])
  else (st, [])

/-- The whole `for char in data` loop: thread the state through each
character, concatenating the emitted actions in order. -/
def processChars (st : ShellState) : Str → ShellState × List Act
  | [] => (st, [])
  | c :: rest =>
    let r := processChar st c
    let rr := processChars r.1 rest
    (rr.1, r.2 ++ rr.2)

/-- `ItterShell.data_received` (shell.py lines 229-440).  Escape sequences
whose guards do not fire fall through to the character loop over the raw
`data`, exactly as in the source (the `elif` bodies without a taken branch
do not `return`). -/
def dataReceived (st : ShellState) (data : Str) : ShellState × List Act :=
  if data.head? = some '\x1b' then
    if data = ['\x1b', '[', 'A'] then
      let r := st.hist.scroll_up
      ({ st with
          hist := r.2, inputBuffer := r.1,
          cursorPos := (r.1.length : Int) }, [.redrawLine])
    else if data = ['\x1b', '[', 'B'] then
      let r := st.hist.scroll_down
      ({ st with
          hist := r.2, inputBuffer := r.1,
          cursorPos := (r.1.length : Int) }, [.redrawLine])
    else if data = ['\x1b', '[', 'D'] then
      if 0 < st.cursorPos then
        ({ st with cursorPos := st.cursorPos - 1 }, [.writeRaw])
      else (st, [])
    else if data = ['\x1b', '[', 'C'] then
      if st.cursorPos < (st.inputBuffer.length : Int) then
        ({ st with cursorPos := st.cursorPos + 1 }, [.writeRaw])
      else (st, [])
    else if data = ['\x1b', '[', '5', '~'] then
      if st.isWatching then
        if 1 < st.currentPage then
          ({ st with currentPage := st.currentPage - 1 },
           [.fetchWatch (st.currentPage - 1)])
        else (st, [.writeMsg msgFirstPageWatch, .redrawPromptBuffer])
      else if st.lastCount ≠ none then
        if 1 < st.currentPage then
          ({ st with currentPage := st.currentPage - 1 },
           [.fetchStatic (st.currentPage - 1)])
        else (st, [.writeMsg msgFirstPageStatic, .prompt])
      else processChars st data
    else if data = ['\x1b', '[', '6', '~'] then
      if st.isWatching then
        match st.lastCount with
        | some n =>
          if st.pageSize ≤ n then
            ({ st with currentPage := st.currentPage + 1 },
             [.fetchWatch (st.currentPage + 1)])
          else (st, [.writeMsg msgLastPageWatch, .redrawPromptBuffer])
        | none => (st, [.writeMsg msgLastPageWatch, .redrawPromptBuffer])
      else
        match st.lastCount with
        | some n =>
          if st.pageSize ≤ n then
            ({ st with currentPage := st.currentPage + 1 },
             [.fetchStatic (st.currentPage + 1)])
          else (st, [.writeMsg msgLastPageStatic, .prompt])
        | none => processChars st data
    else if data = ['\x1b', '[', '5', ';', '5', '~'] then
      if st.sidebarEnabled then
        ({ st with sidebarOffset := max 0 (st.sidebarOffset - SIDEBAR_SCROLL_STEP) },
         [.fetchWatch st.currentPage])
      else processChars st data
    else if data = ['\x1b', '[', '6', ';', '5', '~'] then
      if st.sidebarEnabled then
        let scrollableBodyHeight := max 1 (st.termHeight - 3 - 1 - 1)
        let maxScroll :=
          max 0 ((st.sidebarUserList.length : Int) - scrollableBodyHeight)
        ({ st with
            sidebarOffset := min maxScroll (st.sidebarOffset + SIDEBAR_SCROLL_STEP) },
         [.fetchWatch st.currentPage])
      else processChars st data
    else (st, [])
  else processChars st data

/-! ## C2: line-editor cursor invariant -/

/-- The spec invariant: `cursor_position ∈ [0, len(input_buffer)]`. -/
def editInv (st : ShellState) : Prop :=
  0 ≤ st.cursorPos ∧ st.cursorPos ≤ (st.inputBuffer.length : Int)

theorem pySliceTo_length_of_le (l : Str) (i : Int) (h0 : 0 ≤ i)
    (h1 : i ≤ (l.length : Int)) : ((pySliceTo l i).length : Int) = i := by
  simp only [pySliceTo, if_pos h0, List.length_take]
  omega

theorem pySliceFrom_length (l : Str) (i : Int) (h0 : 0 ≤ i) :
    ((pySliceFrom l i).length : Int) = max 0 ((l.length : Int) - i) := by
  simp only [pySliceFrom, if_pos h0, List.length_drop]
  omega

theorem skipBack_le (p : Char → Bool) (buf : Str) (i : Int) :
    skipBack p buf i ≤ i := by
  unfold skipBack
  split
  · rename_i h
    have ih := skipBack_le p buf (i - 1)
    omega
  · omega
termination_by (i + 1).toNat
decreasing_by omega

theorem skipBack_ge (p : Char → Bool) (buf : Str) (i : Int) (h : -1 ≤ i) :
    -1 ≤ skipBack p buf i := by
  unfold skipBack
  split
  · rename_i hg
    exact skipBack_ge p buf (i - 1) (by omega)
  · omega
termination_by (i + 1).toNat
decreasing_by omega

theorem processChar_editInv (st : ShellState) (c : Char) (h : editInv st) :
    editInv (processChar st c).1 := by
  obtain ⟨h0, h1⟩ := h
  unfold processChar
  by_cases hA : c = '\r' ∨ c = '\n'
  · rw [if_pos hA]
    by_cases hB : st.inputBuffer ≠ []
    · rw [if_pos hB]
      exact ⟨le_refl 0, by simp⟩
    · rw [if_neg hB]
      push_neg at hB
      refine ⟨h0, ?_⟩
      rw [hB] at h1
      simpa using h1
  · rw [if_neg hA]
    by_cases hC : c = '\x7f' ∨ c = '\x08'
    · rw [if_pos hC]
      by_cases hD : 0 < st.cursorPos
      · rw [if_pos hD]
        have ht := pySliceTo_length_of_le st.inputBuffer (st.cursorPos - 1)
          (by omega) (by omega)
        have hf := pySliceFrom_length st.inputBuffer st.cursorPos (by omega)
        refine ⟨by simp only []; omega, ?_⟩
        simp only [List.length_append]
        push_cast
        omega
      · rw [if_neg hD]
        exact ⟨h0, h1⟩
    · rw [if_neg hC]
      by_cases hE : c = '\x03'
      · rw [if_pos hE]; exact ⟨h0, h1⟩
      · rw [if_neg hE]
        by_cases hF : c = '\x04'
        · rw [if_pos hF]; exact ⟨h0, h1⟩
        · rw [if_neg hF]
          by_cases hG : c = '\x15'
          · rw [if_pos hG]
            by_cases hH : st.inputBuffer ≠ []
            · rw [if_pos hH]
              exact ⟨le_refl 0, by simp⟩
            · rw [if_neg hH]
              exact ⟨h0, h1⟩
          · rw [if_neg hG]
            by_cases hI : c = '\x17'
            · rw [if_pos hI]
              by_cases hJ : 0 < st.cursorPos
              · rw [if_pos hJ]
                have hs1 := skipBack_le (fun d => pyIsSpace d) st.inputBuffer
                  (st.cursorPos - 1)
                have hs1g := skipBack_ge (fun d => pyIsSpace d) st.inputBuffer
                  (st.cursorPos - 1) (by omega)
                have hs2 := skipBack_le (fun d => ¬pyIsSpace d) st.inputBuffer
                  (skipBack (fun d => pyIsSpace d) st.inputBuffer (st.cursorPos - 1))
                have hs2g := skipBack_ge (fun d => ¬pyIsSpace d) st.inputBuffer
                  (skipBack (fun d => pyIsSpace d) st.inputBuffer (st.cursorPos - 1))
                  (by omega)
                have ht := pySliceTo_length_of_le st.inputBuffer
                  (skipBack (fun d => ¬pyIsSpace d) st.inputBuffer
                    (skipBack (fun d => pyIsSpace d) st.inputBuffer
                      (st.cursorPos - 1)) + 1)
                  (by omega) (by omega)
                have hf := pySliceFrom_length st.inputBuffer st.cursorPos (by omega)
                refine ⟨by simp only []; omega, ?_⟩
                simp only [List.length_append]
                push_cast
                omega
              · rw [if_neg hJ]
                exact ⟨h0, h1⟩
            · rw [if_neg hI]
              by_cases hK : pyIsPrintable c = true
              · rw [if_pos hK]
                have ht := pySliceTo_length_of_le st.inputBuffer st.cursorPos h0 h1
                have hf := pySliceFrom_length st.inputBuffer st.cursorPos h0
                refine ⟨by simp only []; omega, ?_⟩
                simp only [List.length_append, List.length_singleton]
                push_cast
                omega
              · rw [if_neg hK]
                exact ⟨h0, h1⟩

theorem processChars_editInv (cs : Str) :
    ∀ st : ShellState, editInv st → editInv (processChars st cs).1 := by
  induction cs with
  | nil => intro st h; exact h
  | cons c rest ih =>
    intro st h
    exact ih (processChar st c).1 (processChar_editInv st c h)

theorem dataReceived_editInv (st : ShellState) (d : Str) (h : editInv st) :
    editInv (dataReceived st d).1 := by
  obtain ⟨h0, h1⟩ := h
  unfold dataReceived
  by_cases hEsc : d.head? = some '\x1b'
  · rw [if_pos hEsc]
    by_cases hU : d = ['\x1b', '[', 'A']
    · rw [if_pos hU]
      exact ⟨Int.natCast_nonneg _, le_refl _⟩
    · rw [if_neg hU]
      by_cases hD : d = ['\x1b', '[', 'B']
      · rw [if_pos hD]
        exact ⟨Int.natCast_nonneg _, le_refl _⟩
      · rw [if_neg hD]
        by_cases hL : d = ['\x1b', '[', 'D']
        · rw [if_pos hL]
          by_cases hLc : 0 < st.cursorPos
          · rw [if_pos hLc]
            show 0 ≤ st.cursorPos - 1 ∧
              st.cursorPos - 1 ≤ (st.inputBuffer.length : Int)
            omega
          · rw [if_neg hLc]
            exact ⟨h0, h1⟩
        · rw [if_neg hL]
          by_cases hR : d = ['\x1b', '[', 'C']
          · rw [if_pos hR]
            by_cases hRc : st.cursorPos < (st.inputBuffer.length : Int)
            · rw [if_pos hRc]
              show 0 ≤ st.cursorPos + 1 ∧
                st.cursorPos + 1 ≤ (st.inputBuffer.length : Int)
              omega
            · rw [if_neg hRc]
              exact ⟨h0, h1⟩
          · rw [if_neg hR]
            by_cases hPU : d = ['\x1b', '[', '5', '~']
            · rw [if_pos hPU]
              by_cases hW : st.isWatching = true
              · rw [if_pos hW]
                by_cases hP1 : 1 < st.currentPage
                · rw [if_pos hP1]; exact ⟨h0, h1⟩
                · rw [if_neg hP1]; exact ⟨h0, h1⟩
              · rw [if_neg hW]
                by_cases hSC : st.lastCount ≠ none
                · rw [if_pos hSC]
                  by_cases hP1 : 1 < st.currentPage
                  · rw [if_pos hP1]; exact ⟨h0, h1⟩
                  · rw [if_neg hP1]; exact ⟨h0, h1⟩
                · rw [if_neg hSC]
                  exact processChars_editInv d st ⟨h0, h1⟩
            · rw [if_neg hPU]
              by_cases hPD : d = ['\x1b', '[', '6', '~']
              · rw [if_pos hPD]
                by_cases hW : st.isWatching = true
                · rw [if_pos hW]
                  split
                  · split
                    · exact ⟨h0, h1⟩
                    · exact ⟨h0, h1⟩
                  · exact ⟨h0, h1⟩
                · rw [if_neg hW]
                  split
                  · split
                    · exact ⟨h0, h1⟩
                    · exact ⟨h0, h1⟩
                  · exact processChars_editInv d st ⟨h0, h1⟩
              · rw [if_neg hPD]
                by_cases hSU : d = ['\x1b', '[', '5', ';', '5', '~']
                · rw [if_pos hSU]
                  by_cases hSE : st.sidebarEnabled = true
                  · rw [if_pos hSE]; exact ⟨h0, h1⟩
                  · rw [if_neg hSE]
                    exact processChars_editInv d st ⟨h0, h1⟩
                · rw [if_neg hSU]
                  by_cases hSD : d = ['\x1b', '[', '6', ';', '5', '~']
                  · rw [if_pos hSD]
                    by_cases hSE : st.sidebarEnabled = true
                    · rw [if_pos hSE]; exact ⟨h0, h1⟩
                    · rw [if_neg hSE]
                      exact processChars_editInv d st ⟨h0, h1⟩
                  · rw [if_neg hSD]
                    exact ⟨h0, h1⟩
  · rw [if_neg hEsc]
    exact processChars_editInv d st ⟨h0, h1⟩

/-- Fold `data_received` over a whole sequence of input chunks. -/
def runShell (st : ShellState) (chunks : List Str) : ShellState :=
  chunks.foldl (fun s d => (dataReceived s d).1) st

/-- C2: starting from the freshly constructed shell (empty buffer, cursor 0),
after any sequence of `data_received` events — printable insertion,
backspace, Ctrl+U, Ctrl+W, arrows, history recall, submission, page keys —
the invariant `0 ≤ cursor_position ≤ len(input_buffer)` holds. -/
theorem cursor_invariant (chunks : List Str) : editInv (runShell shellInit chunks) := by
  suffices hgen : ∀ (cs : List Str) (st : ShellState), editInv st → editInv (runShell st cs) by
    exact hgen chunks shellInit ⟨le_refl 0, by simp [shellInit]⟩
  intro cs
  induction cs with
  | nil => intro st h; exact h
  | cons d rest ih =>
    intro st h
    exact ih (dataReceived st d).1 (dataReceived_editInv st d h)

/-! ## C3, C4: pagination and sidebar-scroll input -/

def pageUpKey : Str := ['\x1b', '[', '5', '~']
def pageDownKey : Str := ['\x1b', '[', '6', '~']
def ctrlPageUpKey : Str := ['\x1b', '[', '5', ';', '5', '~']
def ctrlPageDownKey : Str := ['\x1b', '[', '6', ';', '5', '~']
def upArrowKey : Str := ['\x1b', '[', 'A']
def downArrowKey : Str := ['\x1b', '[', 'B']

def isFirstPageMsg : Act → Bool
  | .writeMsg m => m = msgFirstPageWatch || m = msgFirstPageStatic
  | _ => false

def isLastPageMsg : Act → Bool
  | .writeMsg m => m = msgLastPageWatch || m = msgLastPageStatic
  | _ => false

/-- Actions that fetch from the store or re-render a timeline page. -/
def Act.isFetchOrRender : Act → Bool
  | .fetchWatch _ => true
  | .fetchStatic _ => true
  | .renderWatch _ => true
  | .renderStatic _ => true
  | _ => false

theorem dataReceived_pageUp_eval (st : ShellState) :
    dataReceived st pageUpKey =
      if st.isWatching then
        if 1 < st.currentPage then
          ({ st with currentPage := st.currentPage - 1 },
           [.fetchWatch (st.currentPage - 1)])
        else (st, [.writeMsg msgFirstPageWatch, .redrawPromptBuffer])
      else if st.lastCount ≠ none then
        if 1 < st.currentPage then
          ({ st with currentPage := st.currentPage - 1 },
           [.fetchStatic (st.currentPage - 1)])
        else (st, [.writeMsg msgFirstPageStatic, .prompt])
      else processChars st pageUpKey := rfl

theorem dataReceived_pageDown_eval (st : ShellState) :
    dataReceived st pageDownKey =
      if st.isWatching then
        match st.lastCount with
        | some n =>
          if st.pageSize ≤ n then
            ({ st with currentPage := st.currentPage + 1 },
             [.fetchWatch (st.currentPage + 1)])
          else (st, [.writeMsg msgLastPageWatch, .redrawPromptBuffer])
        | none => (st, [.writeMsg msgLastPageWatch, .redrawPromptBuffer])
      else
        match st.lastCount with
        | some n =>
          if st.pageSize ≤ n then
            ({ st with currentPage := st.currentPage + 1 },
             [.fetchStatic (st.currentPage + 1)])
          else (st, [.writeMsg msgLastPageStatic, .prompt])
        | none => processChars st pageDownKey := rfl

theorem dataReceived_ctrlPageUp_eval (st : ShellState) :
    dataReceived st ctrlPageUpKey =
      if st.sidebarEnabled then
        ({ st with sidebarOffset := max 0 (st.sidebarOffset - SIDEBAR_SCROLL_STEP) },
         [.fetchWatch st.currentPage])
      else processChars st ctrlPageUpKey := rfl

theorem dataReceived_ctrlPageDown_eval (st : ShellState) :
    dataReceived st ctrlPageDownKey =
      if st.sidebarEnabled then
        ({ st with
            sidebarOffset :=
              min (max 0 ((st.sidebarUserList.length : Int) -
                    max 1 (st.termHeight - 3 - 1 - 1)))
                (st.sidebarOffset + SIDEBAR_SCROLL_STEP) },
         [.fetchWatch st.currentPage])
      else processChars st ctrlPageDownKey := rfl

theorem processChar_no_fetch (st : ShellState) (c : Char) :
    ((processChar st c).2.all (fun a => ¬a.isFetchOrRender)) = true := by
  unfold processChar
  simp only []
  repeat' split
  all_goals rfl

theorem processChar_page (st : ShellState) (c : Char) :
    (processChar st c).1.currentPage = st.currentPage := by
  unfold processChar
  simp only []
  repeat' split
  all_goals rfl

/-- The character loop never schedules a fetch or a render: it only edits
the buffer and redraws the input line. -/
theorem processChars_no_fetch (cs : Str) :
    ∀ (st : ShellState),
      ((processChars st cs).2.all (fun a => ¬a.isFetchOrRender)) = true := by
  induction cs with
  | nil => intro st; rfl
  | cons c rest ih =>
    intro st
    show (((processChar st c).2 ++
      (processChars (processChar st c).1 rest).2).all
        (fun a => ¬a.isFetchOrRender)) = true
    rw [List.all_append]
    rw [processChar_no_fetch, ih]
    rfl

/-- The character loop never changes `currentPage`. -/
theorem processChars_page (cs : Str) :
    ∀ (st : ShellState), (processChars st cs).1.currentPage = st.currentPage := by
  induction cs with
  | nil => intro st; rfl
  | cons c rest ih =>
    intro st
    show (processChars (processChar st c).1 rest).1.currentPage = st.currentPage
    rw [ih, processChar_page]

/-- Counterexample to C3 as stated: with no timeline context (not watching
and `_last_timeline_eets_count = None` — the freshly connected shell), a
page-up key press at `current_page = 1` produces no "already at first page"
message at all: the guards fall through and the sequence is treated as
ordinary characters. -/
theorem pageUp_at_first_page_cex :
    shellInit.currentPage = 1 ∧ shellInit.isWatching = false ∧
    shellInit.lastCount = none ∧
    ((dataReceived shellInit pageUpKey).2.any isFirstPageMsg) = false := by
  refine ⟨rfl, rfl, rfl, ?_⟩
  rfl

/-- C3 (amended): when the last fetch is recorded and returned fewer than
`page_size` items, page-down reports "already at last page", keeps
`current_page`, and fetches nothing; page-up at page 1 reports "already at
first page" when watching or when a fetch count is recorded — otherwise
the key is not treated as pagination (no message), but `current_page` is
still unchanged and nothing is fetched; `current_page ≥ 1` is preserved by
both keys from any state. -/
theorem pagination_boundary_spec :
    (∀ (st : ShellState) (n : Int), st.lastCount = some n → n < st.pageSize →
      (dataReceived st pageDownKey).1.currentPage = st.currentPage ∧
      ((dataReceived st pageDownKey).2.any isLastPageMsg) = true ∧
      ((dataReceived st pageDownKey).2.all (fun a => ¬a.isFetchOrRender)) = true) ∧
    (∀ st : ShellState, (st.isWatching = true ∨ st.lastCount ≠ none) →
      st.currentPage = 1 →
      (dataReceived st pageUpKey).1.currentPage = st.currentPage ∧
      ((dataReceived st pageUpKey).2.any isFirstPageMsg) = true ∧
      ((dataReceived st pageUpKey).2.all (fun a => ¬a.isFetchOrRender)) = true) ∧
    (∀ st : ShellState, st.isWatching = false → st.lastCount = none →
      (dataReceived st pageUpKey).1.currentPage = st.currentPage ∧
      (dataReceived st pageDownKey).1.currentPage = st.currentPage ∧
      ((dataReceived st pageUpKey).2.all (fun a => ¬a.isFetchOrRender)) = true ∧
      ((dataReceived st pageDownKey).2.all (fun a => ¬a.isFetchOrRender)) = true) ∧
    (∀ st : ShellState, 1 ≤ st.currentPage →
      1 ≤ (dataReceived st pageUpKey).1.currentPage ∧
      1 ≤ (dataReceived st pageDownKey).1.currentPage) := by
  refine ⟨?_, ?_, ?_, ?_⟩
  · intro st n hc hlt
    rw [dataReceived_pageDown_eval]
    by_cases hW : st.isWatching = true
    · rw [if_pos hW]
      simp only [hc]
      rw [if_neg (by omega : ¬st.pageSize ≤ n)]
      exact ⟨rfl, rfl, rfl⟩
    · rw [if_neg hW]
      simp only [hc]
      rw [if_neg (by omega : ¬st.pageSize ≤ n)]
      exact ⟨rfl, rfl, rfl⟩
  · intro st hctx h1
    rw [dataReceived_pageUp_eval]
    by_cases hW : st.isWatching = true
    · rw [if_pos hW]
      rw [if_neg (by omega : ¬1 < st.currentPage)]
      exact ⟨rfl, rfl, rfl⟩
    · rw [if_neg hW]
      have hnc : st.lastCount ≠ none := by
        rcases hctx with h | h
        · exact absurd h hW
        · exact h
      rw [if_pos hnc]
      rw [if_neg (by omega : ¬1 < st.currentPage)]
      exact ⟨rfl, rfl, rfl⟩
  · intro st hW hc
    rw [dataReceived_pageUp_eval, dataReceived_pageDown_eval]
    rw [if_neg (show ¬st.isWatching = true by simp [hW])]
    rw [if_neg (show ¬st.lastCount ≠ none by simp [hc])]
    rw [if_neg (show ¬st.isWatching = true by simp [hW])]
    simp only [hc]
    exact ⟨processChars_page pageUpKey st, processChars_page pageDownKey st,
      processChars_no_fetch pageUpKey st, processChars_no_fetch pageDownKey st⟩
  · intro st h1
    constructor
    · rw [dataReceived_pageUp_eval]
      by_cases hW : st.isWatching = true
      · rw [if_pos hW]
        by_cases hp : 1 < st.currentPage
        · rw [if_pos hp]
          show (1 : Int) ≤ st.currentPage - 1
          omega
        · rw [if_neg hp]
          exact h1
      · rw [if_neg hW]
        by_cases hnc : st.lastCount ≠ none
        · rw [if_pos hnc]
          by_cases hp : 1 < st.currentPage
          · rw [if_pos hp]
            show (1 : Int) ≤ st.currentPage - 1
            omega
          · rw [if_neg hp]
            exact h1
        · rw [if_neg hnc]
          rw [processChars_page]
          exact h1
    · rw [dataReceived_pageDown_eval]
      by_cases hW : st.isWatching = true
      · rw [if_pos hW]
        split
        · split
          · show (1 : Int) ≤ st.currentPage + 1
            omega
          · exact h1
        · exact h1
      · rw [if_neg hW]
        split
        · split
          · show (1 : Int) ≤ st.currentPage + 1
            omega
          · exact h1
        · rw [processChars_page]
          exact h1

/-- Witness for `pagination_boundary_spec`: a shell whose last fetch
returned 3 of 10 requested items keeps its page on page-down. -/
theorem pagination_boundary_spec_witness :
    (dataReceived { shellInit with lastCount := some 3 } pageDownKey).1.currentPage =
      ({ shellInit with lastCount := some 3 } : ShellState).currentPage :=
  (pagination_boundary_spec.1 { shellInit with lastCount := some 3 } 3 rfl
    (by decide)).1

/-- C4: while the sidebar is enabled and the offset is within its valid
range, Ctrl+PageUp / Ctrl+PageDown move `sidebar_scroll_offset` by at most
`SIDEBAR_SCROLL_STEP`, keep it within
`[0, max 0 (len(sidebar_user_list) − visible_body_rows)]` where
`visible_body_rows = max 1 (terminal_height − 3 − 1 − 1)`, and leave the
timeline page unchanged. -/
theorem sidebar_scroll_clamped (st : ShellState)
    (hsb : st.sidebarEnabled = true)
    (hlo : 0 ≤ st.sidebarOffset)
    (hhi : st.sidebarOffset ≤
      max 0 ((st.sidebarUserList.length : Int) - max 1 (st.termHeight - 3 - 1 - 1))) :
    (0 ≤ (dataReceived st ctrlPageUpKey).1.sidebarOffset ∧
     (dataReceived st ctrlPageUpKey).1.sidebarOffset ≤
       max 0 ((st.sidebarUserList.length : Int) - max 1 (st.termHeight - 3 - 1 - 1)) ∧
     st.sidebarOffset - SIDEBAR_SCROLL_STEP ≤
       (dataReceived st ctrlPageUpKey).1.sidebarOffset ∧
     (dataReceived st ctrlPageUpKey).1.sidebarOffset ≤ st.sidebarOffset ∧
     (dataReceived st ctrlPageUpKey).1.currentPage = st.currentPage) ∧
    (0 ≤ (dataReceived st ctrlPageDownKey).1.sidebarOffset ∧
     (dataReceived st ctrlPageDownKey).1.sidebarOffset ≤
       max 0 ((st.sidebarUserList.length : Int) - max 1 (st.termHeight - 3 - 1 - 1)) ∧
     st.sidebarOffset ≤ (dataReceived st ctrlPageDownKey).1.sidebarOffset ∧
     (dataReceived st ctrlPageDownKey).1.sidebarOffset ≤
       st.sidebarOffset + SIDEBAR_SCROLL_STEP ∧
     (dataReceived st ctrlPageDownKey).1.currentPage = st.currentPage) := by
  rw [dataReceived_ctrlPageUp_eval, dataReceived_ctrlPageDown_eval]
  rw [if_pos hsb, if_pos hsb]
  have hstep : SIDEBAR_SCROLL_STEP = 3 := rfl
  rw [hstep] at *
  refine ⟨⟨?_, ?_, ?_, ?_, rfl⟩, ⟨?_, ?_, ?_, ?_, rfl⟩⟩
  · show 0 ≤ max 0 (st.sidebarOffset - 3)
    omega
  · show max 0 (st.sidebarOffset - 3) ≤
      max 0 ((st.sidebarUserList.length : Int) - max 1 (st.termHeight - 3 - 1 - 1))
    omega
  · show st.sidebarOffset - 3 ≤
      max 0 (st.sidebarOffset - 3)
    omega
  · show max 0 (st.sidebarOffset - 3) ≤ st.sidebarOffset
    omega
  · show 0 ≤
      min (max 0 ((st.sidebarUserList.length : Int) - max 1 (st.termHeight - 3 - 1 - 1)))
        (st.sidebarOffset + 3)
    omega
  · show
      min (max 0 ((st.sidebarUserList.length : Int) - max 1 (st.termHeight - 3 - 1 - 1)))
        (st.sidebarOffset + 3) ≤
      max 0 ((st.sidebarUserList.length : Int) - max 1 (st.termHeight - 3 - 1 - 1))
    omega
  · show st.sidebarOffset ≤
      min (max 0 ((st.sidebarUserList.length : Int) - max 1 (st.termHeight - 3 - 1 - 1)))
        (st.sidebarOffset + 3)
    omega
  · show
      min (max 0 ((st.sidebarUserList.length : Int) - max 1 (st.termHeight - 3 - 1 - 1)))
        (st.sidebarOffset + 3) ≤
      st.sidebarOffset + 3
    omega

/-- The spec scenario state for the sidebar clamp: five online users, a
3-row visible body (terminal height 8), offset already at the maximum 2. -/
def sidebarScrollState : ShellState :=
  { shellInit with
      sidebarEnabled := true
      sidebarOffset := 2
      sidebarUserList := [[], [], [], [], []]
      termHeight := 8 }

/-- Witness for `sidebar_scroll_clamped`: scrolling down past the end of a
5-entry list with a 3-row body never yields an offset above 2. -/
theorem sidebar_scroll_clamped_witness :
    (dataReceived sidebarScrollState ctrlPageDownKey).1.sidebarOffset ≤
      max 0 ((sidebarScrollState.sidebarUserList.length : Int) -
        max 1 (sidebarScrollState.termHeight - 3 - 1 - 1)) :=
  (sidebar_scroll_clamped sidebarScrollState rfl (by decide) (by decide)).2.2.1

/-! ## C7: `parse_input_line` (`itter/core/utils.py` lines 77-87) -/

/-- `re.findall` for `HASHTAG_RE = (?<!\w)#(\w(?:[\w-]*\w)?)`: scan left to
right carrying whether the previous character is a word character (the
lookbehind); at an eligible `#`, the greedy body is the maximal run of word
characters and hyphens with trailing hyphens dropped, which must start with
a word character; scanning resumes after the matched body.  The fuel
argument only bounds the recursion; every step consumes at least one
character, so fuel = length of the scanned text never runs out. -/
def scanHashtagsGo : Nat → Bool → Str → List Str
  | 0, _, _ => []
  | _ + 1, _, [] => []
  | fuel + 1, prevWord, c :: rest =>
    if c = '#' ∧ prevWord = false then
      let run := rest.takeWhile (fun d => isWordChar d || d = '-')
      let body := (run.reverse.dropWhile (fun d => d = '-')).reverse
      match body with
      | [] => scanHashtagsGo fuel (isWordChar c) rest
      | b :: bs =>
        if isWordChar b then
          (b :: bs) :: scanHashtagsGo fuel true (rest.drop (b :: bs).length)
        else
          scanHashtagsGo fuel (isWordChar c) rest
    else
      scanHashtagsGo fuel (isWordChar c) rest

def scanHashtags (prevWord : Bool) (l : Str) : List Str :=
  scanHashtagsGo l.length prevWord l

/-- `re.findall` for `USER_RE = (?<!\w)@(\w{3,20})`: at an eligible `@`,
the greedy quantifier takes the first `min 20 k` characters of the maximal
word-character run of length `k`, provided `k ≥ 3`. -/
def scanMentionsGo : Nat → Bool → Str → List Str
  | 0, _, _ => []
  | _ + 1, _, [] => []
  | fuel + 1, prevWord, c :: rest =>
    if c = '@' ∧ prevWord = false then
      let run := rest.takeWhile isWordChar
      if 3 ≤ run.length then
        let m := run.take 20
        m :: scanMentionsGo fuel true (rest.drop m.length)
      else scanMentionsGo fuel (isWordChar c) rest
    else scanMentionsGo fuel (isWordChar c) rest

def scanMentions (prevWord : Bool) (l : Str) : List Str :=
  scanMentionsGo l.length prevWord l

/-- `parse_input_line`: `CMD_SPLIT_RE` applied to the stripped line fails
only when the line is blank or the remainder after the first token contains
a line feed (`.` does not match `\n`); otherwise the first token lower-cased
is the command and the rest is the raw argument text, from which hashtags
(on the lower-cased text) and mention candidates are extracted and
de-duplicated. -/
def parse_input_line (line : Str) :
    Option Str × Str × List Str × List Str :=
  let s := pyStrip line
  if s = [] then (none, [], [], [])
  else
    let cmdTok := s.takeWhile (fun c => ¬pyIsSpace c)
    let afterCmd := (s.dropWhile (fun c => ¬pyIsSpace c)).dropWhile pyIsSpace
    if '\n' ∈ afterCmd then (none, [], [], [])
    else
      (some (cmdTok.map Char.toLower), afterCmd,
       pyDedup (scanHashtags false (afterCmd.map Char.toLower)),
       pyDedup (scanMentions false afterCmd))

theorem pyDedup_nodup (l : List Str) : (pyDedup l).Nodup := by
  suffices hgen : ∀ (acc : List Str), acc.Nodup →
      (l.foldl (fun acc x => if x ∈ acc then acc else acc ++ [x]) acc).Nodup by
    exact hgen [] List.nodup_nil
  induction l with
  | nil => intro acc h; exact h
  | cons x rest ih =>
    intro acc h
    simp only [List.foldl_cons]
    by_cases hx : x ∈ acc
    · rw [if_pos hx]
      exact ih acc h
    · rw [if_neg hx]
      refine ih (acc ++ [x]) ?_
      rw [← List.concat_eq_append]
      exact List.Nodup.concat hx h

/-- C7: `parse_input_line "eet hello #foo @bob"` returns command `eet`, raw
args `hello #foo @bob`, hashtags `{foo}` and mentions `{bob}`; a blank line
yields an absent command; the extracted hashtag and mention lists are
duplicate-free; and on any non-blank single line (no line feed) the command
is the lower-cased first whitespace-delimited token. -/
theorem parse_input_line_spec :
    parse_input_line "eet hello #foo @bob".data =
      (some "eet".data, "hello #foo @bob".data, ["foo".data], ["bob".data]) ∧
    (∀ line : Str, pyStrip line = [] → (parse_input_line line).1 = none) ∧
    (∀ line : Str, (parse_input_line line).2.2.1.Nodup ∧
      (parse_input_line line).2.2.2.Nodup) ∧
    (∀ line : Str, pyStrip line ≠ [] → '\n' ∉ line →
      (parse_input_line line).1 =
        some (((pyStrip line).takeWhile (fun c => ¬pyIsSpace c)).map Char.toLower)) := by
  refine ⟨by decide, ?_, ?_, ?_⟩
  · intro line hblank
    unfold parse_input_line
    rw [if_pos hblank]
  · intro line
    unfold parse_input_line
    by_cases hblank : pyStrip line = []
    · rw [if_pos hblank]
      exact ⟨List.nodup_nil, List.nodup_nil⟩
    · rw [if_neg hblank]
      by_cases hnl : '\n' ∈
        (((pyStrip line).dropWhile (fun c => ¬pyIsSpace c)).dropWhile pyIsSpace)
      · rw [if_pos hnl]
        exact ⟨List.nodup_nil, List.nodup_nil⟩
      · rw [if_neg hnl]
        exact ⟨pyDedup_nodup _, pyDedup_nodup _⟩
  · intro line hblank hnl
    unfold parse_input_line
    rw [if_neg hblank]
    have hsub : '\n' ∉
        (((pyStrip line).dropWhile (fun c => ¬pyIsSpace c)).dropWhile pyIsSpace) := by
      intro hmem
      apply hnl
      have h1 : '\n' ∈ ((pyStrip line).dropWhile (fun c => ¬pyIsSpace c)) :=
        (List.dropWhile_sublist _).mem hmem
      have h2 : '\n' ∈ pyStrip line := (List.dropWhile_sublist _).mem h1
      unfold pyStrip at h2
      rw [List.mem_reverse] at h2
      have h3 := (List.dropWhile_sublist _).mem h2
      rw [List.mem_reverse] at h3
      exact (List.dropWhile_sublist _).mem h3
    rw [if_neg hsub]

/-- Witness for `parse_input_line_spec`: a blank line yields no command. -/
theorem parse_input_line_spec_witness :
    (parse_input_line [' ']).1 = none :=
  parse_input_line_spec.2.1 [' '] (by decide)

/-! ## C6: `handle_eet` (`ssh/commands/eet.py` lines 11-41) -/

/-- `handle_eet(shell, content, hashtags, mentions)` for a logged-in user.
`fetchLen` is the number of posts the store returns if the watch-mode
refresh runs (the refresh also re-reads the online-user registry, an
external input left unmodeled). -/
def handle_eet (st : ShellState) (content : Str) (fetchLen : Int) :
    ShellState × List Act :=
  let content := pyStrip content
  if content = [] then (st, [.writeMsg "Usage: eet <text>"])
  else if EET_MAX_LENGTH < content.length then
    (st, [.writeMsg "ERROR: Eet too long! Max 180."])
  else
    if st.isWatching then
      ({ st with currentPage := 1, lastCount := some fetchLen },
       [.dbPostEet content, .writeMsg "Eet posted!", .clearScreen, .renderWatch 1,
        .redrawPromptBuffer])
    else (st, [.dbPostEet content, .writeMsg "Eet posted!"])

/-- Store-mutating action recognizer. -/
def Act.isDbPost : Act → Bool
  | .dbPostEet _ => true
  | _ => false

/-- C6: content of stripped length exactly `EET_MAX_LENGTH` (180) issues the
create-post call and reports success; length 181 produces the length error
and issues no create-post call; empty (stripped) content produces the usage
message and issues no create-post call — in both error cases the session
state is unchanged. -/
theorem handle_eet_boundary (st : ShellState) (content : Str) (fetchLen : Int)
    (hstrip : pyStrip content = content) :
    (content.length = EET_MAX_LENGTH →
      (Act.dbPostEet content) ∈ (handle_eet st content fetchLen).2 ∧
      (Act.writeMsg "Eet posted!") ∈ (handle_eet st content fetchLen).2) ∧
    (content.length = EET_MAX_LENGTH + 1 →
      (handle_eet st content fetchLen).1 = st ∧
      ((handle_eet st content fetchLen).2.all (fun a => ¬a.isDbPost)) = true ∧
      (Act.writeMsg "ERROR: Eet too long! Max 180.") ∈
        (handle_eet st content fetchLen).2) ∧
    (content = [] →
      (handle_eet st content fetchLen).1 = st ∧
      ((handle_eet st content fetchLen).2.all (fun a => ¬a.isDbPost)) = true ∧
      (Act.writeMsg "Usage: eet <text>") ∈ (handle_eet st content fetchLen).2) := by
  have hE : EET_MAX_LENGTH = 180 := rfl
  refine ⟨?_, ?_, ?_⟩
  · intro hlen
    unfold handle_eet
    rw [hstrip]
    have hne : ¬content = [] := by
      intro hcon
      rw [hcon] at hlen
      simp [hE] at hlen
    rw [if_neg hne, if_neg (by omega : ¬EET_MAX_LENGTH < content.length)]
    by_cases hW : st.isWatching = true
    · rw [if_pos hW]
      exact ⟨by simp, by simp⟩
    · rw [if_neg hW]
      exact ⟨by simp, by simp⟩
  · intro hlen
    unfold handle_eet
    rw [hstrip]
    have hne : ¬content = [] := by
      intro hcon
      rw [hcon] at hlen
      simp [hE] at hlen
    rw [if_neg hne, if_pos (by omega : EET_MAX_LENGTH < content.length)]
    exact ⟨rfl, rfl, by simp⟩
  · intro hcon
    unfold handle_eet
    rw [hstrip, if_pos hcon]
    exact ⟨rfl, rfl, by simp⟩

/-- Witness for `handle_eet_boundary`: a 180-character post issues the
create-post call. -/
theorem handle_eet_boundary_witness :
    (Act.dbPostEet (List.replicate 180 'a')) ∈
      (handle_eet shellInit (List.replicate 180 'a') 0).2 :=
  ((handle_eet_boundary shellInit (List.replicate 180 'a') 0 (by decide)).1
    (by decide)).1

/-! ## C9: history recall via arrow keys -/

theorem dataReceived_upArrow_eval (st : ShellState) :
    dataReceived st upArrowKey =
      ({ st with
          hist := st.hist.scroll_up.2,
          inputBuffer := st.hist.scroll_up.1,
          cursorPos := (st.hist.scroll_up.1.length : Int) }, [.redrawLine]) := rfl

theorem dataReceived_downArrow_eval (st : ShellState) :
    dataReceived st downArrowKey =
      ({ st with
          hist := st.hist.scroll_down.2,
          inputBuffer := st.hist.scroll_down.1,
          cursorPos := (st.hist.scroll_down.1.length : Int) }, [.redrawLine]) := rfl

theorem pyGetStr_mem_or (l : List Str) (i : Int) :
    pyGetStr l i = [] ∨ pyGetStr l i ∈ l := by
  unfold pyGetStr
  split
  · by_cases hn : i.toNat < l.length
    · right
      rw [List.getD_eq_getElem l [] hn]
      exact List.getElem_mem hn
    · left
      exact List.getD_eq_default l [] (by omega)
  · by_cases hn : ((l.length : Int) + i).toNat < l.length
    · right
      rw [List.getD_eq_getElem l [] hn]
      exact List.getElem_mem hn
    · left
      exact List.getD_eq_default l [] (by omega)

/-- C9: up/down arrows replace the buffer wholesale with the value returned
by `scroll_up` / `scroll_down` and put the cursor at end-of-buffer; with an
empty history, or scrolling down past the newest entry (`cursor ≤ 0`), the
returned value is the empty string; and every value the scroll functions
can return is either the empty string or a stored history entry, so
typed-but-unsubmitted input is discarded and unrecoverable. -/
theorem history_recall_spec :
    (∀ st : ShellState,
      (dataReceived st upArrowKey).1.inputBuffer = st.hist.scroll_up.1 ∧
      (dataReceived st upArrowKey).1.cursorPos =
        ((dataReceived st upArrowKey).1.inputBuffer.length : Int) ∧
      (dataReceived st downArrowKey).1.inputBuffer = st.hist.scroll_down.1 ∧
      (dataReceived st downArrowKey).1.cursorPos =
        ((dataReceived st downArrowKey).1.inputBuffer.length : Int)) ∧
    (∀ h : CommandHistory, h.history = [] →
      h.scroll_up.1 = [] ∧ h.scroll_down.1 = []) ∧
    (∀ h : CommandHistory, h.cursor ≤ 0 → h.scroll_down.1 = []) ∧
    (∀ h : CommandHistory,
      (h.scroll_up.1 = [] ∨ h.scroll_up.1 ∈ h.history) ∧
      (h.scroll_down.1 = [] ∨ h.scroll_down.1 ∈ h.history)) := by
  refine ⟨?_, ?_, ?_, ?_⟩
  · intro st
    rw [dataReceived_upArrow_eval, dataReceived_downArrow_eval]
    exact ⟨rfl, rfl, rfl, rfl⟩
  · intro h hemp
    have hlen : h.history.length = 0 := by rw [hemp]; rfl
    constructor
    · unfold CommandHistory.scroll_up
      rw [if_pos hlen]
    · unfold CommandHistory.scroll_down
      rw [if_pos (Or.inl hlen)]
  · intro h hcur
    unfold CommandHistory.scroll_down
    rw [if_pos (Or.inr hcur)]
  · intro h
    constructor
    · unfold CommandHistory.scroll_up
      split
      · left; rfl
      · split
        · exact pyGetStr_mem_or h.history (h.cursor + 1)
        · exact pyGetStr_mem_or h.history (-1)
    · unfold CommandHistory.scroll_down
      split
      · left; rfl
      · exact pyGetStr_mem_or h.history (h.cursor - 1)

/-- Witness for `history_recall_spec`: scrolling up an empty history
returns the empty string. -/
theorem history_recall_spec_witness :
    (CommandHistory.scroll_up ⟨[], -1⟩).1 = [] :=
  (history_recall_spec.2.1 ⟨[], -1⟩ rfl).1

/-! ## C5: `handle_timeline_and_watch` (`ssh/commands/timeline.py` lines 22-95) -/

/-- `parts and parts[-1].isdigit()`. -/
def pyIsDigitStr (s : Str) : Bool := ¬s.isEmpty && s.all pyIsDigit

/-- The explicit trailing page-number token of the argument text, if any. -/
def parsedPageToken (rawText : Str) : Option Int :=
  match (pySplit rawText).getLast? with
  | some last => if pyIsDigitStr last then some (pyStrToNat last) else none
  | none => none

/-- `target_specifier_text` after stripping a trailing page token. -/
def timelineTargetText (rawText : Str) : Str :=
  match (pySplit rawText).getLast? with
  | some last =>
    if pyIsDigitStr last then pyStrip (pyJoinSpace (pySplit rawText).dropLast)
    else rawText
  | none => rawText

/-- Anchored `^@(\w{3,20})$`. -/
def timelineUserMatch (t : Str) : Option Str :=
  match t with
  | '@' :: rest =>
    if rest.all isWordChar ∧ 3 ≤ rest.length ∧ rest.length ≤ 20 then some rest
    else none
  | _ => none

/-- Anchored `^#(\w(?:[\w-]*\w)?)$`: a nonempty run of word characters and
hyphens that starts and ends with a word character. -/
def timelineChannelMatch (t : Str) : Option Str :=
  match t with
  | '#' :: b :: bs =>
    if isWordChar b ∧ ((b :: bs).all fun d => isWordChar d || d = '-') ∧
        isWordChar ((b :: bs).getLast (List.cons_ne_nil b bs)) then
      some (b :: bs)
    else none
  | _ => none

/-- Target-filter selection of `handle_timeline_and_watch` (lines 30-55),
with the invalid-format warnings it writes. -/
def timelineTargetFilter (targetText : Str) : TargetFilter × List Act :=
  match targetText with
  | '@' :: rest =>
    match timelineUserMatch ('@' :: rest) with
    | some name => (.user name, [])
    | none => (.all, [.writeMsg "Invalid user format. Defaulting to 'all'."])
  | '#' :: rest =>
    match timelineChannelMatch ('#' :: rest) with
    | some tag => (.channel tag, [])
    | none => (.all, [.writeMsg "Invalid channel format. Defaulting to 'all'."])
  | other => (parse_target_filter other, [])

/-- `handle_timeline_and_watch` followed, for the watch form, by
`start_live_timeline_view` (which resets the page to 1, renders once
through `refresh_watch_display`, cancels a still-running previous refresh
task and starts a new one), and for the static form by
`render_and_display_timeline` (which disables the sidebar, fetches the
requested page and records the fetched count).  `fetchLen` is the length
of the list the store returns; the sidebar user-list refresh reads the
session registry, an external input left unmodeled. -/
def handle_timeline_and_watch (st : ShellState) (cmd : Str) (rawText : Str)
    (fetchLen : Int) : ShellState × List Act :=
  let st1 := { st with currentPage := 1 }
  let fm := timelineTargetFilter (timelineTargetText rawText)
  let st2 := { st1 with targetFilter := fm.1 }
  let st3 :=
    match parsedPageToken rawText with
    | some p => { st2 with currentPage := p }
    | none => st2
  let isWatch : Bool := cmd == "watch".data || cmd == "w".data
  let st4 := { st3 with sidebarEnabled := isWatch, isWatching := isWatch }
  if isWatch then
    let st5 := { st4 with sidebarOffset := 0 }
    let st6 := { st5 with sidebarEnabled := true, sidebarOffset := 0, currentPage := 1 }
    let st7 := { st6 with currentPage := 1, lastCount := some fetchLen }
    let cancelActs : List Act :=
      match st7.refreshTask with
      | some false => [.cancelRefresh]
      | _ => []
    ({ st7 with refreshTask := some false },
     fm.2 ++ [.clearScreen, .renderWatch 1, .redrawPromptBuffer] ++
       cancelActs ++ [.startRefresh])
  else
    let st5 := { st4 with sidebarEnabled := false }
    let st6 := { st5 with lastCount := some fetchLen }
    (st6, fm.2 ++ [.clearScreen, .renderStatic st6.currentPage, .prompt])

/-- Counterexample to C5 as stated: `watch 2` parses the explicit page
token 2, but `start_live_timeline_view` immediately resets
`current_page` to 1, so the watch form does not honor the page token. -/
theorem watch_page_token_cex :
    parsedPageToken "2".data = some 2 ∧
    (handle_timeline_and_watch shellInit "watch".data "2".data 0).1.currentPage = 1 ∧
    (handle_timeline_and_watch shellInit "watch".data "2".data 0).1.currentPage ≠ 2 := by
  refine ⟨rfl, rfl, ?_⟩
  intro h
  rw [show (handle_timeline_and_watch shellInit "watch".data "2".data 0).1.currentPage
      = 1 from rfl] at h
  exact absurd h (by norm_num)

theorem handle_tw_watch_eval (st : ShellState) (cmd : Str) (rawText : Str)
    (fetchLen : Int) (hw : (cmd == "watch".data || cmd == "w".data) = true) :
    handle_timeline_and_watch st cmd rawText fetchLen =
      ({ st with
          targetFilter := (timelineTargetFilter (timelineTargetText rawText)).1,
          sidebarEnabled := true,
          isWatching := true,
          sidebarOffset := 0,
          currentPage := 1,
          lastCount := some fetchLen,
          refreshTask := some false },
       (timelineTargetFilter (timelineTargetText rawText)).2 ++
         [.clearScreen, .renderWatch 1, .redrawPromptBuffer] ++
         (match st.refreshTask with
          | some false => [Act.cancelRefresh]
          | _ => []) ++ [.startRefresh]) := by
  unfold handle_timeline_and_watch
  simp only []
  rw [hw]
  rw [if_pos rfl]
  cases hpt : parsedPageToken rawText with
  | none => rfl
  | some p => rfl

theorem handle_tw_static_eval (st : ShellState) (cmd : Str) (rawText : Str)
    (fetchLen : Int) (hw : (cmd == "watch".data || cmd == "w".data) = false) :
    handle_timeline_and_watch st cmd rawText fetchLen =
      ({ st with
          targetFilter := (timelineTargetFilter (timelineTargetText rawText)).1,
          currentPage := (parsedPageToken rawText).getD 1,
          sidebarEnabled := false,
          isWatching := false,
          lastCount := some fetchLen },
       (timelineTargetFilter (timelineTargetText rawText)).2 ++
         [.clearScreen, .renderStatic ((parsedPageToken rawText).getD 1),
          .prompt]) := by
  unfold handle_timeline_and_watch
  simp only []
  rw [hw]
  rw [if_neg (by simp)]
  cases hpt : parsedPageToken rawText with
  | none => rfl
  | some p => rfl

theorem timelineTargetFilter_no_start (t : Str) :
    Act.startRefresh ∉ (timelineTargetFilter t).2 := by
  unfold timelineTargetFilter
  repeat' split
  all_goals simp

/-- C5 (amended): on a `timeline`/`tl`/`watch`/`w` command, `is_watching`
and `sidebar_enabled` are both set exactly to whether the command is the
watch form; for the watch form, `current_page` is always reset to 1 (an
explicit trailing page token is parsed but then overridden), the sidebar
scroll offset is reset to 0, one watch render of page 1 happens
immediately, a still-running previous refresh task is cancelled before the
new periodic refresh task is started, and a refresh task is running
afterwards; for the static form, `current_page` becomes the explicit
trailing page token if present, else 1, that page is rendered once and no
refresh task is started. -/
theorem timeline_watch_command_spec (st : ShellState) (cmd : Str) (rawText : Str)
    (fetchLen : Int) :
    ((handle_timeline_and_watch st cmd rawText fetchLen).1.isWatching =
        (cmd == "watch".data || cmd == "w".data)) ∧
    ((handle_timeline_and_watch st cmd rawText fetchLen).1.sidebarEnabled =
        (cmd == "watch".data || cmd == "w".data)) ∧
    ((cmd == "watch".data || cmd == "w".data) = true →
      (handle_timeline_and_watch st cmd rawText fetchLen).1.currentPage = 1 ∧
      (handle_timeline_and_watch st cmd rawText fetchLen).1.sidebarOffset = 0 ∧
      Act.renderWatch 1 ∈ (handle_timeline_and_watch st cmd rawText fetchLen).2 ∧
      (handle_timeline_and_watch st cmd rawText fetchLen).1.refreshTask =
        some false ∧
      ∃ pre, (handle_timeline_and_watch st cmd rawText fetchLen).2 =
          pre ++ [Act.startRefresh] ∧
        (st.refreshTask = some false → Act.cancelRefresh ∈ pre)) ∧
    ((cmd == "watch".data || cmd == "w".data) = false →
      (handle_timeline_and_watch st cmd rawText fetchLen).1.currentPage =
        (parsedPageToken rawText).getD 1 ∧
      Act.renderStatic ((parsedPageToken rawText).getD 1) ∈
        (handle_timeline_and_watch st cmd rawText fetchLen).2 ∧
      Act.startRefresh ∉
        (handle_timeline_and_watch st cmd rawText fetchLen).2) := by
  by_cases hw : (cmd == "watch".data || cmd == "w".data) = true
  · rw [handle_tw_watch_eval st cmd rawText fetchLen hw]
    refine ⟨hw.symm, hw.symm, ?_, ?_⟩
    · intro _
      refine ⟨rfl, rfl, by simp, rfl, ?_⟩
      refine ⟨(timelineTargetFilter (timelineTargetText rawText)).2 ++
        [.clearScreen, .renderWatch 1, .redrawPromptBuffer] ++
        (match st.refreshTask with
         | some false => [Act.cancelRefresh]
         | _ => []), by simp, ?_⟩
      intro hrun
      rw [hrun]
      simp
    · intro hfalse
      rw [hw] at hfalse
      cases hfalse
  · have hf : (cmd == "watch".data || cmd == "w".data) = false := by
      simpa using hw
    rw [handle_tw_static_eval st cmd rawText fetchLen hf]
    refine ⟨hf.symm, hf.symm, ?_, ?_⟩
    · intro htrue
      rw [hf] at htrue
      cases htrue
    · intro _
      refine ⟨rfl, by simp, ?_⟩
      intro hmem
      rw [List.mem_append] at hmem
      rcases hmem with hmem | hmem
      · exact timelineTargetFilter_no_start _ hmem
      · simp at hmem

/-- Witness for `timeline_watch_command_spec`: `watch` with no arguments
lands on page 1 with the sidebar offset reset. -/
theorem timeline_watch_command_spec_witness :
    (handle_timeline_and_watch shellInit "watch".data [] 0).1.currentPage = 1 :=
  ((timeline_watch_command_spec shellInit "watch".data [] 0).2.2.1 (by decide)).1

/-! ## C10: command dispatch and `_last_timeline_eets_count` -/

def timelineCmds : List Str :=
  ["timeline".data, "tl".data, "watch".data, "w".data]

/-- `misc.handle_exit_command`: leaving watch mode cancels a still-running
refresh task and repaints the idle screen (banner/help output condensed to
the clear-screen action); otherwise the session says goodbye and closes. -/
def handle_exit (st : ShellState) : ShellState × List Act :=
  if st.isWatching then
    ({ st with isWatching := false, sidebarEnabled := false },
     (match st.refreshTask with
      | some false => [Act.cancelRefresh]
      | _ => []) ++ [.clearScreen, .prompt])
  else (st, [.writeMsg "itter.sh says: Don't let the door hit you!", .close])

/-- `misc.handle_clear`: while watching, re-renders the watch screen at the
current page (recording the fetched count); otherwise clears and
re-prompts. -/
def handle_clear (st : ShellState) (fetchLen : Int) : ShellState × List Act :=
  if st.isWatching then
    ({ st with lastCount := some fetchLen },
     [.clearScreen, .clearScreen, .renderWatch st.currentPage,
      .redrawPromptBuffer])
  else (st, [.clearScreen, .prompt])

/-- Command keywords whose handlers (follow/ignore/profile/settings/help in
`itter/ssh/commands/`) only write output with respect to the session fields
modeled here: none of them assigns `_last_timeline_eets_count`,
`_current_timeline_page`, `_is_watching_timeline` or `_sidebar_enabled`
(`settings` can change the page size, which no theorem below relies on). -/
def otherCmds : List Str :=
  ["follow".data, "f".data, "unfollow".data, "uf".data, "ignore".data,
   "i".data, "unignore".data, "ui".data, "profile".data, "p".data,
   "settings".data, "s".data, "help".data, "h".data]

/-- `ItterShell._handle_command_line` (shell.py lines 446-510): parse, add
the normalized line to the history, clear `_last_timeline_eets_count` for
every non-timeline keyword, dispatch, and re-prompt unless the handler left
the session watching (or returned early: clear/exit). -/
def handleCommandLine (st : ShellState) (line : Str) (fetchLen : Int) :
    ShellState × List Act :=
  match (parse_input_line line).1 with
  | none => (st, [.prompt])
  | some cmd =>
    let rawText := (parse_input_line line).2.1
    let st1 :=
      { st with hist := st.hist.add (pyStrip (cmd ++ ' ' :: pyStrip rawText)) }
    let st2 := if cmd ∈ timelineCmds then st1 else { st1 with lastCount := none }
    if cmd = "eet".data ∨ cmd = "e".data then
      let r := handle_eet st2 rawText fetchLen
      if r.1.isWatching then r else (r.1, r.2 ++ [.prompt])
    else if cmd ∈ timelineCmds then
      let r := handle_timeline_and_watch st2 cmd rawText fetchLen
      if r.1.isWatching then r else (r.1, r.2 ++ [.prompt])
    else if cmd ∈ otherCmds then
      let r := (st2, ([.writeMsg "command output"] : List Act))
      if r.1.isWatching then r else (r.1, r.2 ++ [.prompt])
    else if cmd = "clear".data ∨ cmd = "c".data then handle_clear st2 fetchLen
    else if cmd = "exit".data ∨ cmd = "x".data then handle_exit st2
    else
      let r := (st2, ([.writeMsg "Sorry, unknown command."] : List Act))
      if r.1.isWatching then r else (r.1, r.2 ++ [.prompt])

/-- Counterexample to C10 as stated: dispatching `eet hi` (keyword not in
the timeline set) while *watching* ends with `_last_timeline_eets_count`
set to the refreshed fetch count, not `None` — the reset at dispatch time
is overwritten by the immediate watch re-render. -/
theorem dispatch_count_reset_cex :
    (parse_input_line "eet hi".data).1 = some "eet".data ∧
    ({ shellInit with isWatching := true } : ShellState).isWatching = true ∧
    (handleCommandLine { shellInit with isWatching := true }
        "eet hi".data 7).1.lastCount = some 7 := by
  refine ⟨rfl, rfl, rfl⟩

theorem handle_eet_fst_not_watching (st : ShellState) (content : Str)
    (fetchLen : Int) (hW : st.isWatching = false) :
    (handle_eet st content fetchLen).1 = st := by
  unfold handle_eet
  simp only []
  split
  · rfl
  · split
    · rfl
    · rw [if_neg (by simp [hW])]

/-- C10 (amended): dispatching a command whose keyword is not
timeline/tl/watch/w clears `_last_timeline_eets_count` before the handler
runs, and when the session is not watching it stays `None` after dispatch
(while watching, `eet` re-renders and records a fresh count); consequently
a subsequent PageUp or PageDown in the resulting non-watching state leaves
`current_page` unchanged and schedules no fetch or render. -/
theorem nonTimeline_dispatch_spec (st : ShellState) (line : Str)
    (fetchLen : Int) (cmd : Str)
    (hparse : (parse_input_line line).1 = some cmd)
    (hnt : cmd ∉ timelineCmds) (hW : st.isWatching = false) :
    (handleCommandLine st line fetchLen).1.lastCount = none ∧
    (handleCommandLine st line fetchLen).1.isWatching = false ∧
    (dataReceived (handleCommandLine st line fetchLen).1 pageUpKey).1.currentPage =
      (handleCommandLine st line fetchLen).1.currentPage ∧
    (dataReceived (handleCommandLine st line fetchLen).1 pageDownKey).1.currentPage =
      (handleCommandLine st line fetchLen).1.currentPage ∧
    ((dataReceived (handleCommandLine st line fetchLen).1 pageUpKey).2.all
      (fun a => ¬a.isFetchOrRender)) = true ∧
    ((dataReceived (handleCommandLine st line fetchLen).1 pageDownKey).2.all
      (fun a => ¬a.isFetchOrRender)) = true := by
  have hkeys : ∀ st2 : ShellState, st2.isWatching = false → st2.lastCount = none →
      (dataReceived st2 pageUpKey).1.currentPage = st2.currentPage ∧
      (dataReceived st2 pageDownKey).1.currentPage = st2.currentPage ∧
      ((dataReceived st2 pageUpKey).2.all (fun a => ¬a.isFetchOrRender)) = true ∧
      ((dataReceived st2 pageDownKey).2.all (fun a => ¬a.isFetchOrRender)) = true := by
    intro st2 h1 h2
    rw [dataReceived_pageUp_eval, dataReceived_pageDown_eval]
    rw [if_neg (show ¬st2.isWatching = true by simp [h1])]
    rw [if_neg (show ¬st2.lastCount ≠ none by simp [h2])]
    rw [if_neg (show ¬st2.isWatching = true by simp [h1])]
    simp only [h2]
    exact ⟨processChars_page pageUpKey st2, processChars_page pageDownKey st2,
      processChars_no_fetch pageUpKey st2, processChars_no_fetch pageDownKey st2⟩
  have hmain : (handleCommandLine st line fetchLen).1.lastCount = none ∧
      (handleCommandLine st line fetchLen).1.isWatching = false := by
    unfold handleCommandLine
    simp only [hparse]
    rw [if_neg hnt]
    by_cases heet : cmd = "eet".data ∨ cmd = "e".data
    · rw [if_pos heet]
      rw [handle_eet_fst_not_watching _ _ _ (by simpa using hW)]
      rw [if_neg (by simpa using hW)]
      exact ⟨rfl, hW⟩
    · rw [if_neg heet, if_neg hnt]
      by_cases hoth : cmd ∈ otherCmds
      · rw [if_pos hoth]
        rw [if_neg (by simpa using hW)]
        exact ⟨rfl, hW⟩
      · rw [if_neg hoth]
        by_cases hclr : cmd = "clear".data ∨ cmd = "c".data
        · rw [if_pos hclr]
          unfold handle_clear
          rw [if_neg (by simpa using hW)]
          exact ⟨rfl, hW⟩
        · rw [if_neg hclr]
          by_cases hex : cmd = "exit".data ∨ cmd = "x".data
          · rw [if_pos hex]
            unfold handle_exit
            rw [if_neg (by simpa using hW)]
            exact ⟨rfl, hW⟩
          · rw [if_neg hex]
            rw [if_neg (by simpa using hW)]
            exact ⟨rfl, hW⟩
  obtain ⟨hc, hwb⟩ := hmain
  obtain ⟨k1, k2, k3, k4⟩ := hkeys _ hwb hc
  exact ⟨hc, hwb, k1, k2, k3, k4⟩

/-- Witness for `nonTimeline_dispatch_spec`: after `help`, the recorded
fetch count is cleared. -/
theorem nonTimeline_dispatch_spec_witness :
    (handleCommandLine { shellInit with lastCount := some 10 }
        "help".data 0).1.lastCount = none :=
  (nonTimeline_dispatch_spec { shellInit with lastCount := some 10 }
    "help".data 0 "help".data (by decide) (by decide) rfl).1
